import Mathlib

/-!
# Formal model of the excel-formula-engine core

Shallow embedding of `FormulaEngine` (src/unnamed/part_000, which holds the
`FormulaEngine` class followed by the static `ExcelFunctions` class) and of the
instance-based `ExcelFunctions` class (src/src/functions/ExcelFunctions.js,
modelled here under the namespace `ExcelFunctionsLib`).

Modelling conventions:
* JavaScript values flowing through the engine are modelled by the inductive
  `Value` (numbers as rationals, plus `NaN` as its own constructor since
  `typeof NaN === 'number'` but every `isNaN` test singles it out).
* A thrown-and-caught JavaScript exception is modelled by the `Option`/branch
  structure of each definition: a code path the source wraps in `try`/`catch`
  is modelled by the value the `catch` produces.
* The external parser collaborator (`parse(formulaText) -> AST`) is not part
  of the repository; definitions that need it take it as an explicit function
  argument, and a minimal concrete instance (`simpleParse`) is modelled from
  the spec for concrete evaluations.
* The external formatter collaborator only produces the `displayValue` /
  `textColor` fields, which never feed back into value resolution
  (`getCellValue` and `getRangeValues` read only `resolvedValue` / `value`),
  so those display-only fields are omitted from the cell model.
-/

/-- A JavaScript value as it can occur in the engine: a (finite) number, the
distinguished floating-point value `NaN`, a string, a boolean, `null`,
`undefined`, or an array. Finite numbers are modelled as rationals. -/
inductive Value where
  | num (q : ℚ)
  | nan
  | str (s : String)
  | bool (b : Bool)
  | null
  | undefined
  | list (vs : List Value)

/-- Numeric value of a non-empty all-digit character run (the `\d+` group of
the cell-reference pattern, consumed by `parseInt`). -/
def digitsToNat (cs : List Char) : Nat :=
  cs.foldl (fun n c => n * 10 + (c.toNat - '0'.toNat)) 0

/-- Rational value of a digit run, used by the decimal-string model of JS
`Number()`. -/
def digitsToRat (cs : List Char) : ℚ :=
  ((digitsToNat cs : ℤ) : ℚ)

/-- Model of JS `Number()` on a trimmed non-empty string: an optional sign
followed by decimal digits with an optional fractional part (`"12"`,
`"12."`, `"12.5"`, `".5"`).  Exponent, hexadecimal and `Infinity` forms —
never produced by this engine's data and not exercised by any theorem — are
conservatively mapped to `NaN` (`none`). -/
def parseDecimal (t : String) : Option ℚ :=
  let cs := t.toList
  let signed : ℚ × List Char :=
    match cs with
    | '+' :: r => (1, r)
    | '-' :: r => (-1, r)
    | _ => (1, cs)
  let sign := signed.1
  let cs₁ := signed.2
  let intDigits := cs₁.takeWhile (·.isDigit)
  let rest := cs₁.dropWhile (·.isDigit)
  match rest with
  | [] =>
      if intDigits.isEmpty then none
      else some (sign * digitsToRat intDigits)
  | '.' :: frac =>
      if frac.all (·.isDigit) ∧ ¬ (intDigits.isEmpty ∧ frac.isEmpty) then
        some (sign * (digitsToRat intDigits + digitsToRat frac / (10 : ℚ) ^ frac.length))
      else none
  | _ => none

/-- Model of JS `String.prototype.trim`: whitespace stripped from both
ends. -/
def jsTrim (s : String) : String :=
  ⟨((s.toList.dropWhile Char.isWhitespace).reverse.dropWhile
      Char.isWhitespace).reverse⟩

/-- Model of JS `Number()` applied to a string: whitespace is trimmed, the
empty (or all-whitespace) string coerces to `0`, and otherwise the decimal
grammar of `parseDecimal` applies.  `none` stands for `NaN`. -/
def jsParseNumber (s : String) : Option ℚ :=
  let t := jsTrim s
  if t = "" then some 0 else parseDecimal t

/-- Model of JS `Number()` applied to an array: the array is first converted
to its string form (elements joined with `","`, `null`/`undefined` elements
rendering empty).  An empty array gives `""` hence `0`; a multi-element array
always contains a `","` hence is `NaN`; a singleton coerces like its element's
string form (a singleton boolean renders `"true"`/`"false"`, hence `NaN`; a
nested singleton array, which this engine never builds, is approximated by
`NaN`). -/
def toNumberList : List Value → Option ℚ
  | [] => some 0
  | [Value.num q] => some q
  | [Value.str s] => jsParseNumber s
  | [Value.null] => some 0
  | [Value.undefined] => some 0
  | [_] => none
  | _ :: _ :: _ => none

/-- Model of JS `Number()` (the coercion behind every `Number(value)` /
`isNaN(value)` in the source).  `none` stands for `NaN`. -/
def toNumber : Value → Option ℚ
  | Value.num q => some q
  | Value.nan => none
  | Value.str s => jsParseNumber s
  | Value.bool b => some (if b then 1 else 0)
  | Value.null => some 0
  | Value.undefined => none
  | Value.list vs => toNumberList vs

/-- Decimal rendering of a rational as JS `String()` renders a number: exact
for integers (the only numeric values any theorem evaluates it at); a
non-integer is rendered with its fractional part truncated to ten digits
(JS prints the shortest round-tripping float form, which a rational model
cannot reproduce exactly; no theorem depends on this case). -/
def numToJsString (q : ℚ) : String :=
  if q.den = 1 then toString q.num
  else
    let sign := if q < 0 then "-" else ""
    let aq := |q|
    let ip : ℤ := aq.floor
    let fracDigits : ℤ := ((aq - (ip : ℚ)) * (10 : ℚ) ^ (10 : ℕ)).floor
    sign ++ toString ip ++ "." ++ toString fracDigits

/-- JS `String()` on a non-array value (`"null"`, `"undefined"`, `"NaN"`,
`"true"`/`"false"`; a nested array, which this engine never builds, is
approximated by the empty string). -/
def scalarToJsString : Value → String
  | Value.num q => numToJsString q
  | Value.nan => "NaN"
  | Value.str s => s
  | Value.bool b => if b then "true" else "false"
  | Value.null => "null"
  | Value.undefined => "undefined"
  | Value.list _ => ""

/-- JS array-to-string conversion: elements joined with `","`, with `null`
and `undefined` elements rendering as the empty string. -/
def joinElems (vs : List Value) : String :=
  String.intercalate "," (vs.map fun v =>
    match v with
    | Value.null => ""
    | Value.undefined => ""
    | x => scalarToJsString x)

/-- JS `String()` on any value. -/
def valueToJsString : Value → String
  | Value.list vs => joinElems vs
  | x => scalarToJsString x

/-- The `ToPrimitive` step of JS `+`: an array converts to its string form,
every other value is already primitive. -/
def toPrimitiveForAdd : Value → Value
  | Value.list vs => Value.str (joinElems vs)
  | x => x

/-- JS binary `+` (the semantics of the untyped `sum += arg.value` in the
engine's SUM): after `ToPrimitive`, if either operand is a string the result
is string concatenation, otherwise both operands are numerically coerced and
added, `NaN` propagating. -/
def jsAdd (a b : Value) : Value :=
  match toPrimitiveForAdd a, toPrimitiveForAdd b with
  | Value.str s, y => Value.str (s ++ valueToJsString y)
  | x, Value.str s => Value.str (valueToJsString x ++ s)
  | x, y =>
      match toNumber x, toNumber y with
      | some m, some n => Value.num (m + n)
      | _, _ => Value.nan

/-- Model of JS `Math.pow` restricted to the rational model: exact for
integer exponents; a non-integer exponent (real-valued exponentiation,
exercised by no theorem) is approximated by `0`. -/
def jsPow (a b : ℚ) : ℚ :=
  if b.den = 1 then
    if 0 ≤ b.num then a ^ b.num.toNat
    else (a ^ (-b.num).toNat)⁻¹
  else 0

/-- A cell of the grid: the raw `value`, the derived `resolved` flag and
`resolvedValue`.  The display-only fields written by the external formatter
(`displayValue`, `textColor`) never feed back into value resolution and are
omitted. -/
structure Cell where
  value : Value
  resolved : Bool := false
  resolvedValue : Option Value := none
  excelFormat : Option String := none

/-- A table is an ordered sequence of rows of cells; rows may be ragged. -/
abbrev Table := List (List Cell)

/-- The parsed form of a cell reference, as returned by
`FormulaEngine.parseCellReference`: zero-based column, zero-based row (an
integer, since the source computes `parseInt(rowStr) - 1`, which is `-1` for
a row written `0`), and the absolute-reference flags. -/
structure CellRef where
  col : Nat
  row : Int
  isAbsoluteCol : Bool
  isAbsoluteRow : Bool
deriving DecidableEq, Repr

/-- An expression-tree node as consumed by `FormulaEngine.evaluateAst`.
The source dispatches on the untyped `ast.type` string with a defensive
default branch; the constructor `other` stands for any node whose tag is none
of the five known ones.  Children of an `operation` node are `Option Ast`
(`none` models a missing/`null` child). -/
inductive Ast where
  | operation (operator : String) (left right : Option Ast)
  | function (name : String) (arguments : List Ast)
  | cell (reference : String) (tableId : Option Nat)
  | range (reference : String) (tableId : Option Nat)
  | literal (value : Value)
  | other

namespace FormulaEngine

/-- `FormulaEngine.parseCellReference`: matches
`^(\$?)([A-Za-z]+)(\$?)(\d+)$`, accumulates the column as
`column * 26 + (letter - 'A')` over the uppercased letters, and returns the
zero-based coordinates with the absolute flags; any non-matching string gives
`null` (`none`). -/
def parseCellReference (ref : String) : Option CellRef :=
  let cs := ref.toList
  let colPart : Bool × List Char :=
    match cs with
    | '$' :: rest => (true, rest)
    | _ => (false, cs)
  let colChars := colPart.2.takeWhile (·.isAlpha)
  let afterCol := colPart.2.dropWhile (·.isAlpha)
  let rowPart : Bool × List Char :=
    match afterCol with
    | '$' :: rest => (true, rest)
    | _ => (false, afterCol)
  let rowChars := rowPart.2.takeWhile (·.isDigit)
  let afterRow := rowPart.2.dropWhile (·.isDigit)
  if colChars.isEmpty ∨ rowChars.isEmpty ∨ ¬ afterRow.isEmpty then none
  else
    let column := colChars.foldl
      (fun c ch => c * 26 + (ch.toUpper.toNat - 'A'.toNat)) 0
    some ⟨column, (digitsToNat rowChars : Int) - 1, colPart.1, rowPart.1⟩

/-- The cell found by `data[tableIndex][row][col]`, or `none` when any index
misses (negative row, out-of-range index, ragged-row gap). -/
def cellAt (data : List Table) (tableIndex : Nat) (row : Int) (col : Nat) :
    Option Cell :=
  if row < 0 then none
  else
    (data[tableIndex]?).bind fun t =>
      (t[row.toNat]?).bind fun r => r[col]?

/-- The value a reference lookup reads from a cell:
`cell.resolvedValue !== undefined ? cell.resolvedValue : cell.value`. -/
def lookupValue (cell : Cell) : Value :=
  cell.resolvedValue.getD cell.value

/-- `FormulaEngine.getCellValue`: a table index past the end, a reference
`parseCellReference` rejects, or a missing cell (the source's
`try`/`catch` around the raw indexing) each yield `'#REF!'`; otherwise the
cell's resolved value if set, else its raw value. -/
def getCellValue (ref : String) (data : List Table) (tableIndex : Nat) :
    Value :=
  if data.length ≤ tableIndex then Value.str "#REF!"
  else
    match parseCellReference ref with
    | none => Value.str "#REF!"
    | some cr =>
        match cellAt data tableIndex cr.row cr.col with
        | none => Value.str "#REF!"
        | some cell => lookupValue cell

/-- The inclusive integer interval `[lo, hi]` as a list (the source's
`for (let i = lo; i <= hi; i++)`). -/
def intRange (lo hi : Int) : List Int :=
  (List.range ((hi - lo).toNat + 1)).map fun k => lo + (k : Int)

/-- JS `String.prototype.split(':')` on the character list of the range
text: the list of (possibly empty) chunks between colons. -/
def splitColon : List Char → List (List Char)
  | [] => [[]]
  | c :: cs =>
      let r := splitColon cs
      if c = ':' then [] :: r
      else
        match r with
        | [] => [[c]]
        | y :: ys => (c :: y) :: ys

/-- `FormulaEngine.getRangeValues`: out-of-range table index gives `null`
(`none`); the range text is uppercased and split on `':'` (a missing second
endpoint throws inside the `try`, giving `null`); both endpoints must parse;
then every present cell in the rectangle spanned by the two corners — corner
order irrelevant — contributes its lookup value when it numerically coerces,
non-numeric cells being silently dropped. -/
def getRangeValues (range : String) (data : List Table) (tableIndex : Nat) :
    Option (List ℚ) :=
  if data.length ≤ tableIndex then none
  else
    let normalized := range.toList.map Char.toUpper
    match splitColon normalized with
    | startRef :: endRef :: _ =>
        match parseCellReference ⟨startRef⟩, parseCellReference ⟨endRef⟩ with
        | some start, some stop =>
            some ((intRange (min start.row stop.row) (max start.row stop.row)).map
              (fun row =>
                ((List.range (max start.col stop.col - min start.col stop.col + 1)).map
                  (fun k => min start.col stop.col + k)).filterMap
                  (fun col =>
                    (cellAt data tableIndex row col).bind fun cell =>
                      toNumber (lookupValue cell)))).flatten
        | _, _ => none
    | _ => none

end FormulaEngine

/-! ## The static `ExcelFunctions` class (second class in src/unnamed/part_000)

These take an already-flattened list of values.  The `FormulaEngine`
dispatch table delegates its `AVERAGE`/`COUNT`/`MAX`/`MIN` entries to them
(the `ExcelFunctions` name the engine calls static methods on resolves to
this class; the instance-based class of src/src/functions/ExcelFunctions.js
is modelled separately under `ExcelFunctionsLib`). -/

namespace ExcelFunctions

/-- The reducer of static `ExcelFunctions.SUM`: `Number`-coerce the value
and skip it when the coercion is `NaN`. -/
def sumStep (sum : ℚ) (value : Value) : ℚ :=
  match toNumber value with
  | none => sum
  | some n => sum + n

/-- Static `ExcelFunctions.SUM`: reduce with `Number` coercion, skipping
every value whose coercion is `NaN`. -/
def SUM (values : List Value) : ℚ :=
  values.foldl sumStep 0

/-- Static `ExcelFunctions.AVERAGE`: an empty list returns `0`; otherwise
only values that are actual numbers (`typeof value === 'number'` and not
`NaN`) are kept, an empty remainder again returning `0`, else their mean.
(The guard against a non-array argument cannot arise in the typed model.) -/
def AVERAGE (values : List Value) : ℚ :=
  if values.length = 0 then 0
  else
    let numbers := values.filterMap fun v =>
      match v with
      | Value.num q => some q
      | _ => none
    if numbers.length = 0 then 0
    else numbers.foldl (· + ·) 0 / (numbers.length : ℚ)

/-- Static `ExcelFunctions.COUNT`: counts values that are numbers (including
`NaN`, whose `typeof` is `'number'`) or strings whose `Number` coercion is
not `NaN`. -/
def COUNT (values : List Value) : Nat :=
  (values.filter fun v =>
    match v with
    | Value.num _ => true
    | Value.nan => true
    | Value.str s => (jsParseNumber s).isSome
    | _ => false).length

/-- Static `ExcelFunctions.MAX`: maximum of the `Number`-coercible subset,
`'#ERROR!'` when that subset is empty. -/
def MAX (values : List Value) : Value :=
  match values.filterMap toNumber with
  | [] => Value.str "#ERROR!"
  | n :: rest => Value.num (rest.foldl max n)

/-- Static `ExcelFunctions.MIN`: minimum of the `Number`-coercible subset,
`'#ERROR!'` when that subset is empty. -/
def MIN (values : List Value) : Value :=
  match values.filterMap toNumber with
  | [] => Value.str "#ERROR!"
  | n :: rest => Value.num (rest.foldl min n)

end ExcelFunctions

namespace FormulaEngine

/-- The effective table index of a `cell`/`range` argument:
`arg.tableId !== undefined ? arg.tableId : currentTableIndex`. -/
def effectiveTable (tableId : Option Nat) (currentTableIndex : Nat) : Nat :=
  tableId.getD currentTableIndex

/-- The `'SUM'` entry of the engine's `this.functions` dispatch table: a
fold over the raw argument nodes.  A `range` argument contributes the sum of
its (already numerically filtered) values when non-empty; a `cell` argument
contributes its value when `Number`-coercible; a `literal` argument is added
with the untyped JS `+` (no numeric check); any other node kind is ignored
(the `if`/`else if` chain has no final `else`). -/
def functionSUMStep (allTables : List Table) (currentTableIndex : Nat)
    (sum : Value) (arg : Ast) : Value :=
  match arg with
  | Ast.range ref tid =>
      match getRangeValues ref allTables (effectiveTable tid currentTableIndex) with
      | some vs =>
          if vs.length > 0 then jsAdd sum (Value.num (vs.foldl (· + ·) 0))
          else sum
      | none => sum
  | Ast.cell ref tid =>
      match toNumber (getCellValue ref allTables (effectiveTable tid currentTableIndex)) with
      | some n => jsAdd sum (Value.num n)
      | none => sum
  | Ast.literal v => jsAdd sum v
  | _ => sum

/-- See the doc comment above `functionSUMStep`: the SUM entry is the fold
of that per-argument step over the argument list, starting from `0`. -/
def functionSUM (args : List Ast) (allTables : List Table)
    (currentTableIndex : Nat) : Value :=
  args.foldl (functionSUMStep allTables currentTableIndex) (Value.num 0)

/-- The `'AVERAGE'` entry of the engine's dispatch table: collects the
values of `range` arguments (dropping a `null` range result), the
`Number`-coercible values of `cell` arguments, and `literal` values
unchecked, then delegates to the static `ExcelFunctions.AVERAGE`.  (Its
`try`/`catch` is dead in the model: none of the called operations throws.) -/
def functionAVERAGE (args : List Ast) (allTables : List Table)
    (currentTableIndex : Nat) : Value :=
  let values := args.foldl
    (fun acc arg =>
      match arg with
      | Ast.range ref tid =>
          match getRangeValues ref allTables (effectiveTable tid currentTableIndex) with
          | some vs => acc ++ vs.map Value.num
          | none => acc
      | Ast.cell ref tid =>
          match toNumber (getCellValue ref allTables (effectiveTable tid currentTableIndex)) with
          | some n => acc ++ [Value.num n]
          | none => acc
      | Ast.literal v => acc ++ [v]
      | _ => acc)
    []
  Value.num (ExcelFunctions.AVERAGE values)

mutual

/-- `FormulaEngine.evaluateAst` applied to a possibly-`null` node: a `null`
(or `undefined`) node returns `null` before the `try` block is entered. -/
def evaluateAst (ast : Option Ast) (allTables : List Table)
    (currentTableIndex : Nat) : Value :=
  match ast with
  | none => Value.null
  | some a => evaluateAstCore a allTables currentTableIndex

/-- The dispatch of `FormulaEngine.evaluateAst` on a present node.  All
`throw` statements of the source (`unknown operator`, `unknown function`,
`unknown AST type`) are caught by the function's own `catch`, which returns
`'#ERROR!'`; those branches therefore produce `'#ERROR!'` directly. -/
def evaluateAstCore (a : Ast) (allTables : List Table)
    (currentTableIndex : Nat) : Value :=
  match a with
  | Ast.operation operator left right =>
      let l := evaluateAst left allTables currentTableIndex
      let r := evaluateAst right allTables currentTableIndex
      match toNumber l, toNumber r with
      | some leftNum, some rightNum =>
          if operator = "+" then Value.num (leftNum + rightNum)
          else if operator = "-" then Value.num (leftNum - rightNum)
          else if operator = "*" then Value.num (leftNum * rightNum)
          else if operator = "/" then
            if rightNum = 0 then Value.str "#DIV/0!"
            else Value.num (leftNum / rightNum)
          else if operator = "^" then Value.num (jsPow leftNum rightNum)
          else Value.str "#ERROR!"
      | _, _ => Value.str "#ERROR!"
  | Ast.function name arguments =>
      if name = "SUM" then functionSUM arguments allTables currentTableIndex
      else if name = "AVERAGE" then
        functionAVERAGE arguments allTables currentTableIndex
      else if name = "COUNT" then
        Value.num ((ExcelFunctions.COUNT
          (getFunctionArgValues arguments allTables currentTableIndex) : ℚ))
      else if name = "MAX" then
        ExcelFunctions.MAX
          (getFunctionArgValues arguments allTables currentTableIndex)
      else if name = "MIN" then
        ExcelFunctions.MIN
          (getFunctionArgValues arguments allTables currentTableIndex)
      else Value.str "#ERROR!"
  | Ast.cell reference tableId =>
      getCellValue reference allTables (effectiveTable tableId currentTableIndex)
  | Ast.range reference tableId =>
      match getRangeValues reference allTables
          (effectiveTable tableId currentTableIndex) with
      | some vs => Value.list (vs.map Value.num)
      | none => Value.null
  | Ast.literal v => v
  | Ast.other => Value.str "#ERROR!"

/-- `FormulaEngine.getFunctionArgValues` (the flattener embedded in the
Evaluator): maps each argument — a `range` to its value list (a `null`
result surviving `flat()` as the single element `null`), a `cell` to a
one-element list, anything else to the one-element list of its `evaluateAst`
result — and flattens one level.  Note it resolves `range`/`cell` arguments
against `currentTableIndex`, ignoring any `tableId` the node carries. -/
def getFunctionArgValues (args : List Ast) (allTables : List Table)
    (currentTableIndex : Nat) : List Value :=
  match args with
  | [] => []
  | arg :: rest =>
      (match arg with
       | Ast.range reference _ =>
           match getRangeValues reference allTables currentTableIndex with
           | some vs => vs.map Value.num
           | none => [Value.null]
       | Ast.cell reference _ =>
           [getCellValue reference allTables currentTableIndex]
       | a => [evaluateAstCore a allTables currentTableIndex])
      ++ getFunctionArgValues rest allTables currentTableIndex

end

/-- The cycle key of a formula: `` `${currentTableIndex}:${formula}` ``. -/
def formulaKey (currentTableIndex : Nat) (formula : String) : String :=
  toString currentTableIndex ++ ":" ++ formula

/-- JS `formula.startsWith('=')`, the formula marker test. -/
def startsWithEq (s : String) : Bool :=
  match s.toList with
  | '=' :: _ => true
  | _ => false

/-- `FormulaEngine.evaluateFormula`.  The external parser is passed in as a
function (`none` models a thrown parse exception).  A non-formula string is
returned unchanged; a key already in the `visited` set short-circuits to
`'#CIRCULAR!'`; otherwise the key is added, the formula parsed and its AST
evaluated, and the key deleted again — but a parse exception jumps to the
`catch`, returning `'#ERROR!'` with the key still in the set.  The result is
paired with the final state of the `visited` set. -/
def evaluateFormula (parse : String → Option Ast) (formula : String)
    (allTables : List Table) (currentTableIndex : Nat)
    (visited : List String) : Value × List String :=
  if ¬ startsWithEq formula then (Value.str formula, visited)
  else
    let key := formulaKey currentTableIndex formula
    if visited.contains key then (Value.str "#CIRCULAR!", visited)
    else
      let visited₁ := key :: visited
      match parse formula with
      | none => (Value.str "#ERROR!", visited₁)
      | some ast =>
          (evaluateAstCore ast allTables currentTableIndex,
           visited₁.erase key)

/-- `FormulaEngine._convertToNumber`: a non-empty (after trimming) string
whose `Number` coercion is not `NaN` becomes that number; every other value
is returned unchanged. -/
def convertToNumber (value : Value) : Value :=
  match value with
  | Value.str s =>
      if (jsParseNumber s).isSome ∧ jsTrim s ≠ "" then
        Value.num ((jsParseNumber s).getD 0)
      else value
  | _ => value

/-- One entry of the `formulas` output list of `processData`:
`{table, row, col, ...cell}` (the spread of the cell's properties is kept as
the whole cell record). -/
structure FormulaEntry where
  table : Nat
  row : Nat
  col : Nat
  cell : Cell

/-- The output of `processData`: the (mutated) tables and the flat list of
formula-cell records. -/
structure ProcessResult where
  tables : List Table
  formulas : List FormulaEntry

/-- Replacing the cell at `(tableIndex, rowIndex, colIndex)`; out-of-range
indices (which the iteration never produces) leave the grid unchanged. -/
def setCell (tables : List Table) (tableIndex rowIndex colIndex : Nat)
    (c : Cell) : List Table :=
  match tables[tableIndex]? with
  | none => tables
  | some t =>
      match t[rowIndex]? with
      | none => tables
      | some r => tables.set tableIndex (t.set rowIndex (r.set colIndex c))

/-- Whether a raw value is a formula:
`typeof originalValue === 'string' && originalValue.startsWith('=')`. -/
def isFormulaValue : Value → Bool
  | Value.str s => FormulaEngine.startsWithEq s
  | _ => false

/-- The body of `processData`'s triple `forEach` for one cell.  A formula
cell is evaluated against the current state of the tables with a fresh
(empty) `visited` set, its result is passed through `_convertToNumber` and
stored as the resolved value, and a record is appended to `formulas`; any
other cell's resolved value is its raw value.  (The display-value and
formatter interaction writes only the display-only fields omitted from the
cell model.) -/
def processCell (parse : String → Option Ast) (st : ProcessResult)
    (idx : Nat × Nat × Nat) : ProcessResult :=
  match (st.tables[idx.1]?).bind (fun t =>
      (t[idx.2.1]?).bind fun r => r[idx.2.2]?) with
  | none => st
  | some cell =>
      if isFormulaValue cell.value then
        let formulaText := match cell.value with
          | Value.str s => s
          | _ => ""
        let resolvedValue := convertToNumber
          (evaluateFormula parse formulaText st.tables idx.1 []).1
        let cell₁ : Cell :=
          { cell with resolved := true, resolvedValue := some resolvedValue }
        { tables := setCell st.tables idx.1 idx.2.1 idx.2.2 cell₁,
          formulas := st.formulas ++ [⟨idx.1, idx.2.1, idx.2.2, cell₁⟩] }
      else
        let cell₁ : Cell :=
          { cell with resolved := true, resolvedValue := some cell.value }
        { tables := setCell st.tables idx.1 idx.2.1 idx.2.2 cell₁,
          formulas := st.formulas }

/-- The `(tableIndex, rowIndex, colIndex)` triples of the triple `forEach`,
in table-major, row-major order.  The iteration shape is taken from the
input grid; `processCell` never changes any list length, so this coincides
with iterating the mutating grid. -/
def cellIndices (data : List Table) : List (Nat × Nat × Nat) :=
  (data.enum.map fun p =>
    (p.2.enum.map fun q =>
      q.2.enum.map fun r => (p.1, q.1, r.1)).flatten).flatten

/-- `FormulaEngine.processData` on an array input (the non-array input
branch wraps `data.tables` and is not modelled): every cell is processed in
table-major, row-major, column order, each step seeing the mutations of the
previous ones. -/
def processData (parse : String → Option Ast) (data : List Table) :
    ProcessResult :=
  (cellIndices data).foldl (processCell parse) ⟨data, []⟩

end FormulaEngine

/-! ## The instance-based `ExcelFunctions` class
(src/src/functions/ExcelFunctions.js), modelled as `ExcelFunctionsLib`. -/

namespace ExcelFunctionsLib

/-- `ExcelFunctions.getFunctionArgValues` of
src/src/functions/ExcelFunctions.js: maps each argument — a `range` to its
value list via the engine's `getRangeValues` (a `null` result surviving
`flat()` as the single element `null`), a `cell` to a one-element list via
`getCellValue`, a `literal` to its value — resolving `range`/`cell`
arguments against `arg.tableId` when present; any other node kind falls off
the `if`/`else if` chain, making `map` produce `undefined`. -/
def getFunctionArgValues (args : List Ast) (allTables : List Table)
    (currentTableIndex : Nat) : List Value :=
  (args.map fun arg =>
    match arg with
    | Ast.range reference tableId =>
        match FormulaEngine.getRangeValues reference allTables
            (FormulaEngine.effectiveTable tableId currentTableIndex) with
        | some vs => vs.map Value.num
        | none => [Value.null]
    | Ast.cell reference tableId =>
        [FormulaEngine.getCellValue reference allTables
          (FormulaEngine.effectiveTable tableId currentTableIndex)]
    | Ast.literal v => [v]
    | _ => [Value.undefined]).flatten

end ExcelFunctionsLib

/-- Modelled from the spec: the external Parser collaborator
(`parse(formulaText) -> AST`, spec section 6) is not part of the repository.
This minimal concrete instance of the contract parses `=<number>` into a
`literal` node and `=<cell reference>` into a `cell` node without a table
override, and fails (a thrown exception, `none`) on anything else.  It is
used only to run the engine on concrete workbooks. -/
def simpleParse (formula : String) : Option Ast :=
  if ¬ FormulaEngine.startsWithEq formula then none
  else
    let body := formula.drop 1
    if body = "" then none
    else
      match parseDecimal body with
      | some q => some (Ast.literal (Value.num q))
      | none =>
          match FormulaEngine.parseCellReference body with
          | some _ => some (Ast.cell body none)
          | none => none

/-! ## Concrete workbooks used by the theorems below -/

/-- A workbook whose only cell, at table 0, row 0, col 0, holds the
self-referential formula `"=A1"`. -/
def selfRefTable : List Table := [[[{ value := Value.str "=A1" }]]]

/-- A one-row workbook where the formula cell A1 references the formula
cell B1, which comes later in iteration order. -/
def wbForwardRef : List Table :=
  [[[{ value := Value.str "=B1" }, { value := Value.str "=2" }]]]

/-- The mirror image of `wbForwardRef`: the formula cell B1 references the
formula cell A1, which comes earlier in iteration order. -/
def wbBackwardRef : List Table :=
  [[[{ value := Value.str "=2" }, { value := Value.str "=A1" }]]]

/-- Two one-cell tables holding the numbers 1 and 2, to separate the two
argument flatteners on an explicit `tableId`. -/
def twoTables : List Table :=
  [[[{ value := Value.num 1 }]], [[{ value := Value.num 2 }]]]

/-- A single row holding the mixed values `[1, "x", 3]`. -/
def mixedTable : List Table :=
  [[[{ value := Value.num 1 }, { value := Value.str "x" },
     { value := Value.num 3 }]]]

/-- The numeric contribution of one `SUM` argument in the sense of the
spec's "sum of the numeric-coercible flattened values": the sum of a range
argument's (already numerically filtered) values, a cell argument's value
when coercible and `0` otherwise, a literal's coercible value, and `0` for
every skipped argument kind. -/
def numericContribution (arg : Ast) (allTables : List Table) (ti : Nat) : ℚ :=
  match arg with
  | Ast.range ref tid =>
      ((FormulaEngine.getRangeValues ref allTables
          (FormulaEngine.effectiveTable tid ti)).getD []).foldl (· + ·) 0
  | Ast.cell ref tid =>
      (toNumber (FormulaEngine.getCellValue ref allTables
          (FormulaEngine.effectiveTable tid ti))).getD 0
  | Ast.literal v => (toNumber v).getD 0
  | _ => 0

/-! ## Theorems -/

attribute [local semireducible] Rat.mul Rat.add Rat.sub Rat.inv

/-- C1: the claim states that evaluating the formula `"=A1"` of the cell at
table 0, row 0, col 0 of `selfRefTable` (with a fresh in-progress set, as
the Orchestrator does) returns `'#CIRCULAR!'`.  The code instead returns the
raw formula text `"=A1"`: `getCellValue` reads the referenced cell's raw
value without recursive evaluation, so the in-progress set is never
consulted twice and the `'#CIRCULAR!'` branch is unreachable from a fresh
set. -/
theorem evaluateFormula_selfRef_returns_raw_text
    (parse : String → Option Ast)
    (hp : parse "=A1" = some (Ast.cell "A1" none)) :
    FormulaEngine.evaluateFormula parse "=A1" selfRefTable 0 []
      = (Value.str "=A1", [])
    ∧ Value.str "=A1" ≠ Value.str "#CIRCULAR!" := by
  refine ⟨?_, by simp⟩
  simp only [FormulaEngine.evaluateFormula, hp]
  rfl

/-- Witness for C1: the spec-modelled parser satisfies the parse hypothesis,
and the evaluation indeed returns the raw text. -/
theorem evaluateFormula_selfRef_returns_raw_text_witness :
    FormulaEngine.evaluateFormula simpleParse "=A1" selfRefTable 0 []
      = (Value.str "=A1", []) :=
  (evaluateFormula_selfRef_returns_raw_text simpleParse rfl).1

/-- C2: the claim states that the resolved value of a formula cell
referencing another formula cell is independent of iteration order.  In
`wbForwardRef` the cell A1 references the later formula cell B1 and resolves
to the raw formula text `"=2"`, while in the mirrored `wbBackwardRef` the
cell B1 references the earlier formula cell A1 and resolves to the computed
number `2` — the same reference relationship yields different resolved
values depending on order. -/
theorem processData_resolution_is_order_dependent :
    (FormulaEngine.cellAt
        (FormulaEngine.processData simpleParse wbForwardRef).tables 0 0 0).map
        Cell.resolvedValue = some (some (Value.str "=2"))
    ∧ (FormulaEngine.cellAt
        (FormulaEngine.processData simpleParse wbBackwardRef).tables 0 0 1).map
        Cell.resolvedValue = some (some (Value.num 2))
    ∧ Value.str "=2" ≠ Value.num 2 := by
  refine ⟨rfl, rfl, ?_⟩
  simp

/-- C3 (counterexample): the claim states `parseCellReference` maps the
column letters `"AA"` to 26; the code's accumulation
`column * 26 + (letter - 'A')` with `A = 0` maps `"AA"` to `0`. -/
theorem parseCellReference_AA_maps_to_zero :
    (FormulaEngine.parseCellReference "AA1").map CellRef.col = some 0
    ∧ (some 0 : Option Nat) ≠ some 26 := by
  refine ⟨rfl, ?_⟩
  simp

/-- C3 (amended): the column letters decode as `"A" → 0`, `"Z" → 25`,
`"AA" → 0`, `"AB" → 1` — the single-letter columns as the claim states, but
multi-letter columns restart near zero because the accumulation
`column * 26 + (letter - 'A')` uses `A = 0` with no bijective-base
correction. -/
theorem parseCellReference_column_decoding :
    (FormulaEngine.parseCellReference "A1").map CellRef.col = some 0
    ∧ (FormulaEngine.parseCellReference "Z1").map CellRef.col = some 25
    ∧ (FormulaEngine.parseCellReference "AA1").map CellRef.col = some 0
    ∧ (FormulaEngine.parseCellReference "AB1").map CellRef.col = some 1 :=
  ⟨rfl, rfl, rfl, rfl⟩

/-- C6 (counterexample): the claim states `evaluateAst` returns `'#ERROR!'`
on a null node; the code's `if (!ast) return null` runs before the `try`
block and returns `null` instead. -/
theorem evaluateAst_null_node_returns_null :
    FormulaEngine.evaluateAst none [] 0 = Value.null
    ∧ Value.null ≠ Value.str "#ERROR!" := by
  refine ⟨rfl, ?_⟩
  simp

/-- C6 (amended): for every workbook and table index, `evaluateAst` returns
`null` on a null node, and `'#ERROR!'` on a node whose tag is none of
operation/function/cell/range/literal (the thrown `Unknown AST type` caught
by the function's own handler). -/
theorem evaluateAst_null_and_unknown_tag (allTables : List Table)
    (currentTableIndex : Nat) :
    FormulaEngine.evaluateAst none allTables currentTableIndex = Value.null
    ∧ FormulaEngine.evaluateAstCore Ast.other allTables currentTableIndex
        = Value.str "#ERROR!" :=
  ⟨rfl, rfl⟩

/-- C9: `AVERAGE` applied to an empty value list returns `0` (not an
error), while `MAX` and `MIN` applied to a value list whose
`Number`-coercible subset is empty each return `'#ERROR!'`. -/
theorem average_empty_and_max_min_error :
    ExcelFunctions.AVERAGE [] = 0
    ∧ ∀ values : List Value, values.filterMap toNumber = [] →
        ExcelFunctions.MAX values = Value.str "#ERROR!"
        ∧ ExcelFunctions.MIN values = Value.str "#ERROR!" := by
  refine ⟨rfl, fun values h => ⟨?_, ?_⟩⟩
  · simp [ExcelFunctions.MAX, h]
  · simp [ExcelFunctions.MIN, h]

/-- Witness for C9: the value list `["x"]` has an empty numeric subset, and
`MAX`/`MIN` return `'#ERROR!'` on it. -/
theorem average_empty_and_max_min_error_witness :
    ExcelFunctions.MAX [Value.str "x"] = Value.str "#ERROR!"
    ∧ ExcelFunctions.MIN [Value.str "x"] = Value.str "#ERROR!" :=
  average_empty_and_max_min_error.2 [Value.str "x"] rfl

/-- C8: `getCellValue` is a total function (the source catches the raw
indexing inside `try`/`catch`, so no exception reaches its caller), and it
returns `'#REF!'` whenever the reference text is malformed
(`parseCellReference` rejects it), the table index is out of bounds, or the
addressed cell is missing — including ragged-row gaps, both modelled by
`cellAt` returning `none`. -/
theorem getCellValue_fails_safely (ref : String) (data : List Table)
    (tableIndex : Nat)
    (h : FormulaEngine.parseCellReference ref = none
         ∨ data.length ≤ tableIndex
         ∨ ∀ cr, FormulaEngine.parseCellReference ref = some cr →
             FormulaEngine.cellAt data tableIndex cr.row cr.col = none) :
    FormulaEngine.getCellValue ref data tableIndex = Value.str "#REF!" := by
  unfold FormulaEngine.getCellValue
  by_cases hlen : data.length ≤ tableIndex
  · simp [hlen]
  · simp only [hlen, if_false]
    rcases h with hp | hl | hc
    · simp [hp]
    · exact absurd hl hlen
    · cases hpc : FormulaEngine.parseCellReference ref with
      | none => simp
      | some cr => simp [hc cr hpc]

/-- Witness for C8: the malformed reference `"1A"`, an out-of-bounds table
index, and a ragged-row gap each produce `'#REF!'`. -/
theorem getCellValue_fails_safely_witness :
    FormulaEngine.getCellValue "1A" mixedTable 0 = Value.str "#REF!"
    ∧ FormulaEngine.getCellValue "A1" mixedTable 3 = Value.str "#REF!"
    ∧ FormulaEngine.getCellValue "A2" mixedTable 0 = Value.str "#REF!" :=
  ⟨getCellValue_fails_safely "1A" mixedTable 0 (Or.inl rfl),
   getCellValue_fails_safely "A1" mixedTable 3 (Or.inr (Or.inl (by simp [mixedTable]))),
   getCellValue_fails_safely "A2" mixedTable 0
     (Or.inr (Or.inr (fun cr hcr => by
        cases hcr.symm.trans (rfl : FormulaEngine.parseCellReference "A2" = some ⟨0, 1, false, false⟩)
        rfl)))⟩

/-- C10: resolving a cell reference never triggers recursive formula
evaluation — when the addressed cell's `resolvedValue` is unset,
`getCellValue` returns the cell's raw value completely unchanged, whatever
it is (in particular a formula string beginning with `'='`, which the
referencing formula then sees as text). -/
theorem getCellValue_returns_raw_value (ref : String) (data : List Table)
    (tableIndex : Nat) (cr : CellRef) (cell : Cell)
    (hti : tableIndex < data.length)
    (hp : FormulaEngine.parseCellReference ref = some cr)
    (hc : FormulaEngine.cellAt data tableIndex cr.row cr.col = some cell)
    (hr : cell.resolvedValue = none) :
    FormulaEngine.getCellValue ref data tableIndex = cell.value := by
  unfold FormulaEngine.getCellValue
  simp [Nat.not_le.mpr hti, hp, hc, FormulaEngine.lookupValue, hr]

/-- Witness for C10: in `selfRefTable` the unresolved cell A1 holds the
formula string `"=A1"`, and `getCellValue` returns exactly that text. -/
theorem getCellValue_returns_raw_value_witness :
    FormulaEngine.getCellValue "A1" selfRefTable 0 = Value.str "=A1" :=
  getCellValue_returns_raw_value "A1" selfRefTable 0 ⟨0, 0, false, false⟩
    { value := Value.str "=A1" } (by simp [selfRefTable]) rfl rfl rfl

/-- C5: for every parser, formula string carrying the `'='` marker, workbook,
table index, and in-progress set not containing the formula's key:
`evaluateFormula` inserts the key, and a parse exception (the only exception
the `try` body can raise — `evaluateAst` catches its own) is converted to
`'#ERROR!'` with the key still in the returned set, while the
non-exceptional path removes the key again before returning. -/
theorem evaluateFormula_key_discipline (parse : String → Option Ast)
    (formula : String) (allTables : List Table) (tableIndex : Nat)
    (visited : List String)
    (h1 : FormulaEngine.startsWithEq formula = true)
    (h2 : FormulaEngine.formulaKey tableIndex formula ∉ visited) :
    (parse formula = none →
        FormulaEngine.evaluateFormula parse formula allTables tableIndex visited
          = (Value.str "#ERROR!",
             FormulaEngine.formulaKey tableIndex formula :: visited))
    ∧ ∀ ast, parse formula = some ast →
        FormulaEngine.evaluateFormula parse formula allTables tableIndex visited
          = (FormulaEngine.evaluateAstCore ast allTables tableIndex, visited) := by
  have hc : visited.contains (FormulaEngine.formulaKey tableIndex formula) = false := by
    simpa using h2
  constructor
  · intro hp
    simp [FormulaEngine.evaluateFormula, h1, hc, hp, h2]
  · intro ast hp
    simp [FormulaEngine.evaluateFormula, h1, hc, hp, h2, List.erase_cons_head]

/-- Witness for C5: a parser that always throws turns `"=1"` into
`'#ERROR!'` and leaves the key `0:=1` in the in-progress set. -/
theorem evaluateFormula_key_discipline_witness :
    FormulaEngine.evaluateFormula (fun _ => none) "=1" [] 0 []
      = (Value.str "#ERROR!", [FormulaEngine.formulaKey 0 "=1"]) :=
  (evaluateFormula_key_discipline (fun _ => none) "=1" [] 0 [] rfl
    (by simp)).1 rfl

/-- C4 (counterexample): the two argument flatteners disagree as soon as an
argument carries an explicit `tableId`: on the cell argument `A1` with
`tableId = 1` over `twoTables`, the Evaluator's flattener ignores the
override and reads table 0 (value 1) while the Function Library's flattener
honours it and reads table 1 (value 2). -/
theorem getFunctionArgValues_diverge_on_tableId :
    FormulaEngine.getFunctionArgValues [Ast.cell "A1" (some 1)] twoTables 0
      = [Value.num 1]
    ∧ ExcelFunctionsLib.getFunctionArgValues [Ast.cell "A1" (some 1)] twoTables 0
      = [Value.num 2]
    ∧ ([Value.num 1] : List Value) ≠ [Value.num 2] := by
  refine ⟨rfl, rfl, ?_⟩
  simp

/-- C4 (amended): the two flatteners agree on every argument list whose
arguments are literals, or cell/range references without an explicit
`tableId` (they differ when a `tableId` override is present — which the
Evaluator's version ignores — or when an argument is any other node kind,
which the Evaluator's version evaluates and the Library's maps to
`undefined`). -/
theorem getFunctionArgValues_agree_without_tableId (args : List Ast)
    (allTables : List Table) (currentTableIndex : Nat)
    (h : ∀ a ∈ args, (∃ v, a = Ast.literal v)
         ∨ (∃ r, a = Ast.cell r none) ∨ (∃ r, a = Ast.range r none)) :
    FormulaEngine.getFunctionArgValues args allTables currentTableIndex
      = ExcelFunctionsLib.getFunctionArgValues args allTables currentTableIndex := by
  induction args with
  | nil => rfl
  | cons a rest ih =>
      have ha := h a (List.mem_cons_self a rest)
      have hrest := ih fun x hx => h x (List.mem_cons_of_mem a hx)
      rcases ha with ⟨v, rfl⟩ | ⟨r, rfl⟩ | ⟨r, rfl⟩
      · simp [FormulaEngine.getFunctionArgValues,
          ExcelFunctionsLib.getFunctionArgValues, FormulaEngine.evaluateAstCore,
          hrest]
      · simp [FormulaEngine.getFunctionArgValues,
          ExcelFunctionsLib.getFunctionArgValues, FormulaEngine.effectiveTable,
          hrest]
      · cases hgr : FormulaEngine.getRangeValues r allTables currentTableIndex with
        | none =>
            simp [FormulaEngine.getFunctionArgValues,
              ExcelFunctionsLib.getFunctionArgValues,
              FormulaEngine.effectiveTable, hgr, hrest]
        | some vs =>
            simp [FormulaEngine.getFunctionArgValues,
              ExcelFunctionsLib.getFunctionArgValues,
              FormulaEngine.effectiveTable, hgr, hrest]

/-- Witness for C4 (amended): on a literal, a plain cell and a plain range
argument over `twoTables`, the two flatteners produce the same list. -/
theorem getFunctionArgValues_agree_without_tableId_witness :
    FormulaEngine.getFunctionArgValues
        [Ast.literal (Value.num 5), Ast.cell "A1" none, Ast.range "A1:A1" none]
        twoTables 0
      = ExcelFunctionsLib.getFunctionArgValues
          [Ast.literal (Value.num 5), Ast.cell "A1" none, Ast.range "A1:A1" none]
          twoTables 0 :=
  getFunctionArgValues_agree_without_tableId
    [Ast.literal (Value.num 5), Ast.cell "A1" none, Ast.range "A1:A1" none]
    twoTables 0 (by
      intro a ha
      simp only [List.mem_cons, List.not_mem_nil, or_false] at ha
      rcases ha with rfl | rfl | rfl
      · exact Or.inl ⟨_, rfl⟩
      · exact Or.inr (Or.inl ⟨_, rfl⟩)
      · exact Or.inr (Or.inr ⟨_, rfl⟩))

/-- The fold of `sumStep` from any accumulator adds the sum of the
`Number`-coercible subset. -/
theorem sumStep_fold (values : List Value) :
    ∀ q : ℚ, values.foldl ExcelFunctions.sumStep q
      = q + (values.filterMap toNumber).sum := by
  induction values with
  | nil => intro q; simp
  | cons v rest ih =>
      intro q
      cases hv : toNumber v with
      | none => simp [ExcelFunctions.sumStep, hv, ih, List.filterMap_cons]
      | some n =>
          simp [ExcelFunctions.sumStep, hv, ih, List.filterMap_cons, add_assoc]

/-- JS `+` on two numbers is rational addition. -/
theorem jsAdd_num_num (a b : ℚ) :
    jsAdd (Value.num a) (Value.num b) = Value.num (a + b) := rfl

/-- Unfolding `functionSUMStep` on a range argument. -/
theorem functionSUMStep_range (allTables : List Table) (ti : Nat)
    (sum : Value) (ref : String) (tid : Option Nat) :
    FormulaEngine.functionSUMStep allTables ti sum (Ast.range ref tid)
      = match FormulaEngine.getRangeValues ref allTables
            (FormulaEngine.effectiveTable tid ti) with
        | some vs =>
            if vs.length > 0 then jsAdd sum (Value.num (vs.foldl (· + ·) 0))
            else sum
        | none => sum := rfl

/-- Unfolding `functionSUMStep` on a cell argument. -/
theorem functionSUMStep_cell (allTables : List Table) (ti : Nat)
    (sum : Value) (ref : String) (tid : Option Nat) :
    FormulaEngine.functionSUMStep allTables ti sum (Ast.cell ref tid)
      = match toNumber (FormulaEngine.getCellValue ref allTables
            (FormulaEngine.effectiveTable tid ti)) with
        | some n => jsAdd sum (Value.num n)
        | none => sum := rfl

/-- Unfolding `numericContribution` on a range argument. -/
theorem numericContribution_range (allTables : List Table) (ti : Nat)
    (ref : String) (tid : Option Nat) :
    numericContribution (Ast.range ref tid) allTables ti
      = ((FormulaEngine.getRangeValues ref allTables
            (FormulaEngine.effectiveTable tid ti)).getD []).foldl (· + ·) 0 := rfl

/-- Unfolding `numericContribution` on a cell argument. -/
theorem numericContribution_cell (allTables : List Table) (ti : Nat)
    (ref : String) (tid : Option Nat) :
    numericContribution (Ast.cell ref tid) allTables ti
      = (toNumber (FormulaEngine.getCellValue ref allTables
            (FormulaEngine.effectiveTable tid ti))).getD 0 := rfl

/-- The fold of `functionSUMStep` from a numeric accumulator adds the
numeric contributions of the arguments, provided every literal argument is
numeric. -/
theorem functionSUMStep_fold (allTables : List Table) (tableIndex : Nat) :
    ∀ args : List Ast,
      (∀ a ∈ args, ∀ v, a = Ast.literal v → ∃ q, v = Value.num q) →
      ∀ q : ℚ,
        args.foldl (FormulaEngine.functionSUMStep allTables tableIndex)
            (Value.num q)
          = Value.num
              (q + (args.map fun a => numericContribution a allTables tableIndex).sum) := by
  intro args
  induction args with
  | nil => intro _ q; simp
  | cons a rest ih =>
      intro h q
      have hrest := ih fun x hx => h x (List.mem_cons_of_mem a hx)
      simp only [List.foldl_cons, List.map_cons, List.sum_cons]
      cases a with
      | range ref tid =>
          rw [functionSUMStep_range, numericContribution_range]
          cases hgr : FormulaEngine.getRangeValues ref allTables
              (FormulaEngine.effectiveTable tid tableIndex) with
          | none => simp [hrest]
          | some vs =>
              by_cases hlen : vs.length > 0
              · simp [hlen, jsAdd_num_num, hrest, add_assoc]
              · have hnil : vs = [] :=
                  List.length_eq_zero.mp (Nat.eq_zero_of_not_pos hlen)
                subst hnil
                simp [hrest]
      | cell ref tid =>
          rw [functionSUMStep_cell, numericContribution_cell]
          cases hn : toNumber (FormulaEngine.getCellValue ref allTables
              (FormulaEngine.effectiveTable tid tableIndex)) with
          | none => simp [hrest]
          | some n => simp [jsAdd_num_num, hrest, add_assoc]
      | literal v =>
          obtain ⟨qv, rfl⟩ := h _ (List.mem_cons_self _ rest) v rfl
          have hstep : FormulaEngine.functionSUMStep allTables tableIndex
              (Value.num q) (Ast.literal (Value.num qv))
                = Value.num (q + qv) := rfl
          have hcontrib : numericContribution (Ast.literal (Value.num qv))
              allTables tableIndex = qv := rfl
          rw [hstep, hcontrib, hrest, add_assoc]
      | operation op l r =>
          have hstep : FormulaEngine.functionSUMStep allTables tableIndex
              (Value.num q) (Ast.operation op l r) = Value.num q := rfl
          have hcontrib : numericContribution (Ast.operation op l r)
              allTables tableIndex = 0 := rfl
          rw [hstep, hcontrib, hrest]
          ring_nf
      | function name as =>
          have hstep : FormulaEngine.functionSUMStep allTables tableIndex
              (Value.num q) (Ast.function name as) = Value.num q := rfl
          have hcontrib : numericContribution (Ast.function name as)
              allTables tableIndex = 0 := rfl
          rw [hstep, hcontrib, hrest]
          ring_nf
      | other =>
          have hstep : FormulaEngine.functionSUMStep allTables tableIndex
              (Value.num q) Ast.other = Value.num q := rfl
          have hcontrib : numericContribution Ast.other
              allTables tableIndex = 0 := rfl
          rw [hstep, hcontrib, hrest]
          ring_nf

/-- C7 (counterexample): the claim states SUM skips every non-numeric
flattened value; the engine's SUM entry adds a literal argument with the
untyped JS `+` and no numeric check, so the string literal `"x"`
concatenates onto the numeric accumulator `0`, giving the string `"0x"`
rather than the claimed skip result `0`. -/
theorem functionSUM_string_literal_not_skipped :
    FormulaEngine.functionSUM [Ast.literal (Value.str "x")] [] 0
      = Value.str "0x"
    ∧ Value.str "0x" ≠ Value.num 0 := by
  refine ⟨rfl, ?_⟩
  simp

/-- C7 (amended): the static `ExcelFunctions.SUM` over already-flattened
values is the sum of the `Number`-coercible subset (non-numerics skipped as
the additive identity); the engine's SUM entry equals the sum of its
arguments' numeric contributions provided every literal argument is numeric
(a non-numeric literal is instead folded in with the untyped JS `+`, see the
counterexample); and SUM over a range holding `[1, "x", 3]` returns `4`. -/
theorem sum_skips_non_numeric_amended :
    (∀ values : List Value,
        ExcelFunctions.SUM values = (values.filterMap toNumber).sum)
    ∧ (∀ (args : List Ast) (allTables : List Table) (tableIndex : Nat),
        (∀ a ∈ args, ∀ v, a = Ast.literal v → ∃ q, v = Value.num q) →
        FormulaEngine.functionSUM args allTables tableIndex
          = Value.num
              ((args.map fun a => numericContribution a allTables tableIndex).sum))
    ∧ FormulaEngine.functionSUM [Ast.range "A1:C1" none] mixedTable 0
        = Value.num 4 := by
  refine ⟨fun values => ?_, fun args allTables tableIndex h => ?_, rfl⟩
  · simpa [ExcelFunctions.SUM] using sumStep_fold values 0
  · simpa [FormulaEngine.functionSUM] using
      functionSUMStep_fold allTables tableIndex args h 0

/-- Witness for C7 (amended): the numeric literal `2` contributes exactly
itself. -/
theorem sum_skips_non_numeric_amended_witness :
    FormulaEngine.functionSUM [Ast.literal (Value.num 2)] [] 0
      = Value.num
          (([Ast.literal (Value.num 2)].map fun a => numericContribution a [] 0).sum) :=
  sum_skips_non_numeric_amended.2.1 [Ast.literal (Value.num 2)] [] 0 (by
    intro a ha v hv
    simp only [List.mem_cons, List.not_mem_nil, or_false] at ha
    subst ha
    cases hv
    exact ⟨2, rfl⟩)
